import Mathlib

/-!
Shallow embedding of src/lang.cc (a toy-language front end: lexer, AST
types, precedence table, recursive-descent expression parser with
precedence climbing).

Modelling conventions:
- characters are Lean Char; the input stream is a List Char, and getchar
  returning EOF is modelled by Option Char with none for EOF;
- the lexer globals ident and numval are threaded explicitly; numval is
  kept as the scanned literal text (the source stores strtod of that
  text; the text determines the double, and all claims use literals such
  as 1, 2, 3, 42 whose conversion is exact);
- the parser "current token" global plus the pending token stream are a
  PSt record; since the lexer is independent of parser state, the token
  stream is pre-computed by lexAll as a list of snapshots of
  (token, ident, numval) after each gettoken call;
- std::map of char to int is an association list; operator[] inserts a
  value-initialized 0 entry when the key is absent, as in C++;
- fallible parse functions return PRes: ok, fail (the source returns
  nullptr after printing via err), or spin (fuel ran out; never reached
  with the fuel bounds used below, which over-approximate the call depth).
-/

namespace Kali

/-- C locale isspace, applied by the lexer to its lookahead character. -/
def isspaceC (c : Char) : Bool :=
  c = ' ' || c = '\t' || c = '\n' || c = '\r' || c.toNat = 11 || c.toNat = 12

/-- C locale isalpha. -/
def isalphaC (c : Char) : Bool :=
  ('a'.toNat ≤ c.toNat && c.toNat ≤ 'z'.toNat) ||
  ('A'.toNat ≤ c.toNat && c.toNat ≤ 'Z'.toNat)

/-- C locale isdigit. -/
def isdigitC (c : Char) : Bool :=
  '0'.toNat ≤ c.toNat && c.toNat ≤ '9'.toNat

/-- C locale isalnum. -/
def isalnumC (c : Char) : Bool :=
  isalphaC c || isdigitC c

/-- Token tags of lang.cc: EOF, the two keywords, identifier, number,
and verbatim single characters. The identifier and number payloads live
in the lexer globals, not in the token, exactly as in the source. -/
inductive Tok where
  | eof
  | kwDef
  | kwExt
  | ident
  | number
  | ch (c : Char)
deriving DecidableEq

/-- The integer code of a token, as the int token variable holds it
(tok_eof = -1 ... tok_number = -5, characters verbatim). -/
def tokCode : Tok → Int
  | .eof => -1
  | .kwDef => -2
  | .kwExt => -3
  | .ident => -4
  | .number => -5
  | .ch c => Int.ofNat c.toNat

/-- The whitespace loop of gettoken: while isspace(cursor) cursor = getchar(). -/
def skipSpaces (cursor : Option Char) (input : List Char) : Option Char × List Char :=
  match cursor with
  | some c =>
    if isspaceC c then
      match input with
      | [] => (none, [])
      | d :: ds => skipSpaces (some d) ds
    else (some c, input)
  | none => (none, input)

/-- The comment loop of gettoken: do cursor = getchar() while cursor is
not EOF, newline or carriage return; the terminating character stays in
the cursor. -/
def skipComment : List Char → Option Char × List Char
  | [] => (none, [])
  | c :: cs => if c = '\n' || c = '\r' then (some c, cs) else skipComment cs

/-- The identifier loop: while isalnum(cursor = getchar()) ident += cursor. -/
def scanIdent (acc : String) : List Char → String × (Option Char × List Char)
  | [] => (acc, (none, []))
  | c :: cs => if isalnumC c then scanIdent (acc.push c) cs else (acc, (some c, cs))

/-- The number loop: do number += cursor; cursor = getchar() while the
cursor is a digit or a dot (multiple dots are accepted, as in the source). -/
def scanNumber (acc : String) (c : Char) : List Char → String × (Option Char × List Char)
  | [] => (acc.push c, (none, []))
  | d :: ds =>
    if isdigitC d || d = '.' then scanNumber (acc.push c) d ds
    else (acc.push c, (some d, ds))

/-- Result of one gettoken call: the token plus the new lexer state
(lookahead cursor, remaining input, the ident and numval globals). -/
structure LexOut where
  tok : Tok
  cursor : Option Char
  input : List Char
  ident : String
  numval : String
deriving DecidableEq

/-- gettoken of lang.cc. The only recursion in the source is the restart
after a comment that ends in a newline; the fuel argument bounds it and
input.length + 2 always suffices (each restart consumes at least one
character). When the comment loop hits EOF the source falls through its
remaining checks and returns tok_eof, which is reproduced directly. -/
def gettoken : Nat → Option Char → List Char → String → String → LexOut
  | 0, c, i, id, nv => ⟨.eof, c, i, id, nv⟩
  | f + 1, cursor0, input0, id, nv =>
    let s1 := skipSpaces cursor0 input0
    if s1.1 = some '#' then
      let s2 := skipComment s1.2
      match s2.1 with
      | none => ⟨.eof, none, s2.2, id, nv⟩
      | some c => gettoken f (some c) s2.2 id nv
    else
      match s1.1 with
      | some c =>
        if isalphaC c then
          let r := scanIdent (String.singleton c) s1.2
          ⟨if r.1 = "def" then .kwDef else if r.1 = "extern" then .kwExt else .ident,
            r.2.1, r.2.2, r.1, nv⟩
        else if isdigitC c then
          let r := scanNumber "" c s1.2
          ⟨.number, r.2.1, r.2.2, id, r.1⟩
        else
          match s1.2 with
          | [] => ⟨.ch c, none, [], id, nv⟩
          | d :: ds => ⟨.ch c, some d, ds, id, nv⟩
      | none => ⟨.eof, none, s1.2, id, nv⟩

/-- One token of the pre-computed stream: the token returned by a
gettoken call together with the values of the ident and numval globals
right after that call. -/
structure LexStep where
  tok : Tok
  ident : String
  numval : String
deriving DecidableEq

/-- Runs gettoken to completion, recording each token with the global
state after it; the final eof token is included. The fuel bounds the
number of tokens; a token stream over n characters has at most n + 1
tokens, so n + 2 suffices. -/
def lexAll : Nat → Option Char → List Char → String → String → List LexStep
  | 0, _, _, _, _ => []
  | f + 1, cursor, input, id, nv =>
    let r := gettoken (input.length + 2) cursor input id nv
    match r.tok with
    | .eof => [⟨.eof, r.ident, r.numval⟩]
    | t => ⟨t, r.ident, r.numval⟩ :: lexAll f r.cursor r.input r.ident r.numval

/-- The token stream of a whole source string, from the initial lexer
state of the program: cursor holds a space, ident and numval empty. -/
def lexSteps (s : String) : List LexStep :=
  lexAll (s.length + 2) (some ' ') s.toList "" ""

/-- The AST of lang.cc. The op of a BinaryExprAST is kept as the int
token code that the source narrows to char (int op = token); for the
ASCII operator characters it is the character code. The number payload
is the scanned literal text, see the header note. -/
inductive ExprAST where
  | NumberExprAST (val : String)
  | VariableExprAST (name : String)
  | BinaryExprAST (op : Int) (left : ExprAST) (right : ExprAST)
  | CallExprAST (callee : String) (args : List ExprAST)

/-- Lookup in the std::map of char to int. -/
def mapLookup : List (Char × Int) → Char → Option Int
  | [], _ => none
  | p :: m, c => if c = p.1 then some p.2 else mapLookup m c

/-- std::map operator[]: the mapped value if the key is present, else a
value-initialized 0 entry is inserted and returned. -/
def mapBracket (m : List (Char × Int)) (c : Char) : Int × List (Char × Int) :=
  match mapLookup m c with
  | some v => (v, m)
  | none => (0, m ++ [(c, 0)])

/-- Assignment through operator[]: precedence[c] = v. -/
def mapSet (m : List (Char × Int)) (c : Char) (v : Int) : List (Char × Int) :=
  match m with
  | [] => [(c, v)]
  | p :: rest => if c = p.1 then (c, v) :: rest else p :: mapSet rest c v

/-- The precedence table as init() of the driver populates it. -/
def initPrec : List (Char × Int) :=
  mapSet (mapSet (mapSet (mapSet (mapSet (mapSet [] '<' 10) '>' 10)
    '+' 20) '-' 20) '*' 40) '/' 40

/-- The effective precedence a lookup through get_token_precedence
yields for a character: the stored value if positive, else -1. -/
def effPrec (m : List (Char × Int)) (c : Char) : Int :=
  match mapLookup m c with
  | some v => if v ≤ 0 then -1 else v
  | none => -1

/-- Parser state: the current token with the ident and numval globals,
the not yet consumed token stream, and the precedence table (carried
because get_token_precedence can mutate it through operator[]). -/
structure PSt where
  token : Tok
  ident : String
  numval : String
  rest : List LexStep
  prec : List (Char × Int)

/-- nexttoken of lang.cc: token = gettoken(). Popping the pre-computed
stream; on an exhausted stream gettoken keeps returning eof and changes
nothing, which the empty case reproduces. -/
def nexttoken (st : PSt) : PSt :=
  match st.rest with
  | [] => ⟨.eof, st.ident, st.numval, [], st.prec⟩
  | s :: r => ⟨s.tok, s.ident, s.numval, r, st.prec⟩

/-- get_token_precedence of lang.cc: -1 for non-ascii (all named token
codes are negative, hence not ascii), else the precedence[token] lookup
through operator[] (inserting 0 when absent), with non-positive values
reported as -1. Returns the possibly grown table. -/
def get_token_precedence (st : PSt) : Int × PSt :=
  match st.token with
  | .ch c =>
    if c.toNat ≤ 127 then
      let b := mapBracket st.prec c
      (if b.1 ≤ 0 then -1 else b.1, ⟨st.token, st.ident, st.numval, st.rest, b.2⟩)
    else (-1, st)
  | _ => (-1, st)

/-- Result of a fallible parse function: ok is a built node, fail is the
nullptr return after err prints its message, spin marks exhausted fuel
and is never reached with the fuel bounds used by runExpr. -/
inductive PRes (α : Type) where
  | ok (a : α)
  | fail
  | spin

/-- parse_number_expr: builds a NumberExprAST from numval and advances.
The assert of the source (token == tok_number) is a precondition of its
only call site, parse_primary_expr. -/
def parse_number_expr (st : PSt) : PRes ExprAST × PSt :=
  (.ok (.NumberExprAST st.numval), nexttoken st)

mutual

/-- parse_expr: a primary followed by parse_binary_op_right(0, left). -/
def parse_expr : Nat → PSt → PRes ExprAST × PSt
  | 0, st => (.spin, st)
  | f + 1, st =>
    match parse_primary_expr f st with
    | (.ok left, st1) => parse_binary_op_right f 0 left st1
    | (.fail, st1) => (.fail, st1)
    | (.spin, st1) => (.spin, st1)

/-- parse_primary_expr: dispatch on the current token; the default case
is err("unknown token when parsing an expression"), returning nullptr
with the token untouched. -/
def parse_primary_expr : Nat → PSt → PRes ExprAST × PSt
  | 0, st => (.spin, st)
  | f + 1, st =>
    match st.token with
    | .ident => parse_ident_expr f st
    | .number => parse_number_expr st
    | .ch c => if c = '(' then parse_paren_expr f st else (.fail, st)
    | _ => (.fail, st)

/-- parse_ident_expr: advances past the identifier first, then reads the
ident global — so the name used is the value of the global after the
lookahead token was lexed, exactly as in the source. For a call, the
callee string is read from the global only after the final nexttoken
past the closing parenthesis. -/
def parse_ident_expr : Nat → PSt → PRes ExprAST × PSt
  | 0, st => (.spin, st)
  | f + 1, st =>
    let st1 := nexttoken st
    if st1.token ≠ .ch '(' then (.ok (.VariableExprAST st1.ident), st1)
    else
      let st2 := nexttoken st1
      match parse_call_args f st2 [] with
      | (.ok args, st3) =>
        let st4 := nexttoken st3
        (.ok (.CallExprAST st4.ident args), st4)
      | (.fail, st3) => (.fail, st3)
      | (.spin, st3) => (.spin, st3)

/-- The argument loop of parse_ident_expr: while token is not a closing
parenthesis, parse an expression; break on a closing parenthesis,
err("expected ... in argument list") on anything but a comma. -/
def parse_call_args : Nat → PSt → List ExprAST → PRes (List ExprAST) × PSt
  | 0, st, _ => (.spin, st)
  | f + 1, st, acc =>
    if st.token = .ch ')' then (.ok acc, st)
    else
      match parse_expr f st with
      | (.ok arg, st1) =>
        if st1.token = .ch ')' then (.ok (acc ++ [arg]), st1)
        else if st1.token = .ch ',' then parse_call_args f (nexttoken st1) (acc ++ [arg])
        else (.fail, st1)
      | (.fail, st1) => (.fail, st1)
      | (.spin, st1) => (.spin, st1)

/-- parse_paren_expr: consume the opening parenthesis, parse an
expression, require and consume the closing parenthesis
(err("expected ... in expression") otherwise). -/
def parse_paren_expr : Nat → PSt → PRes ExprAST × PSt
  | 0, st => (.spin, st)
  | f + 1, st =>
    let st1 := nexttoken st
    match parse_expr f st1 with
    | (.ok e, st2) =>
      if st2.token = .ch ')' then (.ok e, nexttoken st2)
      else (.fail, st2)
    | (.fail, st2) => (.fail, st2)
    | (.spin, st2) => (.spin, st2)

/-- parse_binary_op_right of lang.cc: NOTE that, unlike the classic
precedence-climbing formulation, the source computes tok_prec ONCE,
before the while(true) loop (line 232), and never refreshes it inside
the loop; the loop body is binop_loop with that fixed tok_prec. -/
def parse_binary_op_right : Nat → Int → ExprAST → PSt → PRes ExprAST × PSt
  | 0, _, _, st => (.spin, st)
  | f + 1, pr, left, st =>
    match get_token_precedence st with
    | (tok_prec, st1) => binop_loop f pr tok_prec left st1

/-- The while(true) body of parse_binary_op_right, with tok_prec fixed
across iterations as in the source: if tok_prec < pr return left; else
capture op = token, advance, parse a primary as right, peek the next
precedence, recurse with tok_prec + 1 when it exceeds tok_prec, combine
into a BinaryExprAST and loop. -/
def binop_loop : Nat → Int → Int → ExprAST → PSt → PRes ExprAST × PSt
  | 0, _, _, _, st => (.spin, st)
  | f + 1, pr, tok_prec, left, st =>
    if tok_prec < pr then (.ok left, st)
    else
      let op := tokCode st.token
      let st1 := nexttoken st
      match parse_primary_expr f st1 with
      | (.ok right, st2) =>
        match get_token_precedence st2 with
        | (next_tok_prec, st3) =>
          if tok_prec < next_tok_prec then
            match parse_binary_op_right f (tok_prec + 1) right st3 with
            | (.ok right2, st4) => binop_loop f pr tok_prec (.BinaryExprAST op left right2) st4
            | (.fail, st4) => (.fail, st4)
            | (.spin, st4) => (.spin, st4)
          else binop_loop f pr tok_prec (.BinaryExprAST op left right) st3
      | (.fail, st2) => (.fail, st2)
      | (.spin, st2) => (.spin, st2)

end

/-- The parser state at the start of a top-level unit for source s: the
driver ran init() and one nexttoken(), so the first token of the stream
is current. lexSteps is never empty (it always ends with the eof step),
so the first branch is unreachable. -/
def initPSt (s : String) : PSt :=
  match lexSteps s with
  | [] => ⟨.eof, "", "", [], initPrec⟩
  | s0 :: r => ⟨s0.tok, s0.ident, s0.numval, r, initPrec⟩

/-- Fuel that over-approximates the parse call depth for source s: the
call tree branches at most a constant number of times per consumed
token. -/
def exprFuel (s : String) : Nat :=
  10 * s.length + 50

/-- Parsing source s as a single expression, as handle_top_level_expr
reaches parse_expr. -/
def runExpr (s : String) : PRes ExprAST × PSt :=
  parse_expr (exprFuel s) (initPSt s)

/-- Parser progress measure: remaining stream length plus one when the
current token is not eof. -/
def stM (st : PSt) : Nat :=
  st.rest.length + (if st.token = Tok.eof then 0 else 1)

/-- Lookup in a map extended by an absent-key insertion of operator[]:
present keys keep their value, the inserted key reads back 0. -/
theorem mapLookup_append (m : List (Char × Int)) (c c2 : Char) :
    mapLookup (m ++ [(c2, 0)]) c =
      match mapLookup m c with
      | some v => some v
      | none => if c = c2 then some 0 else none := by
  induction m with
  | nil => simp [mapLookup]
  | cons p m ih => by_cases h : c = p.1 <;> simp [mapLookup, h, ih]

/-- C1: the claim says parsing "1 + 2 * 3" with the standard table
succeeds with BinaryExpression(+, 1, BinaryExpression(*, 2, 3)); the
code instead returns failure (so in particular it yields neither tree),
because parse_binary_op_right computes tok_prec once before its
while(true) loop and never refreshes it, so after the operand chain is
consumed the stale precedence keeps the loop running, it captures eof as
an operator, and the following parse_primary_expr fails. -/
theorem claim_C1 : (runExpr "1 + 2 * 3").1 = PRes.fail := rfl

/-- C2: the claim says the loop re-reads the precedence of the current
token every iteration and hence any primary op primary input followed by
a non-operator parses successfully; in the code tok_prec is read once
before the loop, and "1 + 2;" (and "1 + 2" at end of input) fails. -/
theorem claim_C2 : (runExpr "1 + 2;").1 = PRes.fail ∧ (runExpr "1 + 2").1 = PRes.fail :=
  ⟨rfl, rfl⟩

/-- C3: the claim says "1 - 2 - 3" parses to the left-associated tree;
the code returns failure, for the same stale-precedence reason as C1. -/
theorem claim_C3 : (runExpr "1 - 2 - 3").1 = PRes.fail := rfl

/-- C4: the claim says "foo(1, 2+3)" yields Call foo [1, 2+3] and that a
parsed call callee always equals the identifier that begins the call.
The code fails on "foo(1, 2+3)" (the argument 2+3 runs into the
stale-precedence bug of C1), and on "foo(bar)" it builds the call with
callee "bar": the callee string is read from the ident global only after
the argument list and the token past the closing parenthesis were lexed. -/
theorem claim_C4 :
    (runExpr "foo(1, 2+3)").1 = PRes.fail
    ∧ (runExpr "foo(bar)").1 =
        PRes.ok (.CallExprAST "bar" [.VariableExprAST "bar"]) :=
  ⟨rfl, rfl⟩

/-- C5: the claim says an identifier primary always becomes a
VariableReference carrying that identifier token string, whatever
follows. The code reads the ident global after advancing past the
identifier, so when the following token is another identifier or a
keyword the global is already overwritten: "a b" yields a variable named
b, and "foo def" yields a variable named def. -/
theorem claim_C5 :
    (runExpr "a b").1 = PRes.ok (.VariableExprAST "b")
    ∧ (runExpr "foo def").1 = PRes.ok (.VariableExprAST "def") :=
  ⟨rfl, rfl⟩

/-- C6: parse failure is a returned sentinel, with the current token
left at the offending token. The err default of parse_primary_expr
returns the failure with the state untouched (stated for any punctuation
token other than an opening parenthesis and for eof), and on "foo(1,"
the parse fails with the current token at eof, so one further
single-token skip by the driver still sees eof and the driver loop
stops: progress, no infinite loop. -/
theorem claim_C6 :
    (∀ (f : Nat) (st : PSt) (c : Char), st.token = Tok.ch c → c ≠ '(' →
      parse_primary_expr (f + 1) st = (PRes.fail, st))
    ∧ (∀ (f : Nat) (st : PSt), st.token = Tok.eof →
      parse_primary_expr (f + 1) st = (PRes.fail, st))
    ∧ (runExpr "foo(1,").1 = PRes.fail
    ∧ (runExpr "foo(1,").2.token = Tok.eof
    ∧ (nexttoken (runExpr "foo(1,").2).token = Tok.eof := by
  refine ⟨?_, ?_, rfl, rfl, rfl⟩
  · intro f st c h hc
    simp [parse_primary_expr, h, hc]
  · intro f st h
    simp [parse_primary_expr, h]

/-- Witness for C6: the first conjunct applied at a concrete state whose
current token is a semicolon. -/
theorem claim_C6_witness :
    parse_primary_expr 1 ⟨Tok.ch ';', "", "", [], []⟩ =
      (PRes.fail, ⟨Tok.ch ';', "", "", [], []⟩) :=
  claim_C6.1 0 ⟨Tok.ch ';', "", "", [], []⟩ ';' rfl (by decide)

/-- C7 counterexample: the precedence table is not read-only after init.
Parsing "1;" makes get_token_precedence look up the semicolon through
std::map operator[], which inserts the absent key with value 0: the key
set afterwards contains the semicolon, which init never added. -/
theorem claim_C7_cex :
    mapLookup (runExpr "1;").2.prec ';' = some 0
    ∧ mapLookup initPrec ';' = none :=
  ⟨rfl, rfl⟩

/-- C7 amended: get_token_precedence never changes the effective
character-to-precedence mapping, never changes the value of a present
entry, and a lookup whose character is absent from the table yields -1;
only the key set can grow (absent ascii characters are inserted with
value 0 by operator[]). -/
theorem claim_C7 :
    (∀ (st : PSt) (c : Char),
      effPrec (get_token_precedence st).2.prec c = effPrec st.prec c)
    ∧ (∀ (st : PSt) (c : Char) (v : Int),
      mapLookup st.prec c = some v →
        mapLookup (get_token_precedence st).2.prec c = some v)
    ∧ (∀ (st : PSt) (c : Char), st.token = Tok.ch c →
      mapLookup st.prec c = none → (get_token_precedence st).1 = -1) := by
  refine ⟨?_, ?_, ?_⟩
  · intro st c
    cases htok : st.token
    case ch c0 =>
      by_cases hascii : c0.toNat ≤ 127
      · cases hl : mapLookup st.prec c0 with
        | some v => simp [get_token_precedence, htok, hascii, mapBracket, hl]
        | none =>
          simp only [get_token_precedence, htok, hascii, if_true, mapBracket, hl]
          by_cases hc : c = c0
          · simp [effPrec, mapLookup_append, hl, hc]
          · simp only [effPrec, mapLookup_append, hl, hc]
            cases hcl : mapLookup st.prec c <;> simp [hcl, hc]
      · simp [get_token_precedence, htok, hascii]
    all_goals simp [get_token_precedence, htok]
  · intro st c v hv
    cases htok : st.token
    case ch c0 =>
      by_cases hascii : c0.toNat ≤ 127
      · cases hl : mapLookup st.prec c0 with
        | some w => simp [get_token_precedence, htok, hascii, mapBracket, hl, hv]
        | none =>
          simp only [get_token_precedence, htok, hascii, if_true, mapBracket, hl]
          simp [mapLookup_append, hv]
      · simp [get_token_precedence, htok, hascii, hv]
    all_goals simp [get_token_precedence, htok, hv]
  · intro st c htok hnone
    by_cases hascii : c.toNat ≤ 127 <;>
      simp [get_token_precedence, htok, hascii, mapBracket, hnone]

/-- Witness for C7: a lookup at a semicolon token over the init table
yields -1, by the third conjunct. -/
theorem claim_C7_witness :
    (get_token_precedence ⟨Tok.ch ';', "", "", [], initPrec⟩).1 = -1 :=
  claim_C7.2.2 ⟨Tok.ch ';', "", "", [], initPrec⟩ ';' rfl rfl

/-- C8: comments lex to nothing: the token stream of "# ignore this"
followed by a newline and 42 equals the token stream of "42", and both
are one number token with payload 42 followed by eof. -/
theorem claim_C8 :
    lexSteps "# ignore this\n42" = lexSteps "42"
    ∧ lexSteps "42" = [⟨Tok.number, "", "42"⟩, ⟨Tok.eof, "", "42"⟩] :=
  ⟨rfl, rfl⟩

/-- C9: the argument list parser accepts the empty list and a trailing
comma: "foo()" parses to a call with no arguments and "foo(1,)" to a
call with exactly the one argument 1. -/
theorem claim_C9 :
    (runExpr "foo()").1 = PRes.ok (.CallExprAST "foo" [])
    ∧ (runExpr "foo(1,)").1 = PRes.ok (.CallExprAST "foo" [.NumberExprAST "1"]) :=
  ⟨rfl, rfl⟩

/-- C10: termination ingredients as the claim lists them. Once the
character source is exhausted, gettoken returns eof and leaves the whole
lexer state unchanged, for any remaining fuel. Every nexttoken on a
state whose current token is not eof strictly decreases the progress
measure stM (each loop iteration that consumes a token makes progress),
and at eof with an exhausted stream nexttoken is the identity. All the
parse functions of this file are total Lean functions. -/
theorem claim_C10 :
    (∀ (f : Nat) (id nv : String),
      gettoken (f + 1) none [] id nv = ⟨Tok.eof, none, [], id, nv⟩)
    ∧ (∀ st : PSt, st.token ≠ Tok.eof → stM (nexttoken st) < stM st)
    ∧ (∀ st : PSt, st.token = Tok.eof → st.rest = [] → nexttoken st = st) := by
  refine ⟨fun f id nv => rfl, ?_, ?_⟩
  · intro st h
    cases st with
    | mk tok id nv rest prec =>
      cases rest with
      | nil => simp [nexttoken, stM, h]
      | cons s r =>
        simp only [nexttoken, stM, h, if_false, List.length_cons]
        split <;> omega
  · intro st h1 h2
    cases st
    simp_all [nexttoken]

/-- Witness for C10: the nexttoken progress conjunct at a concrete state
holding a number token with one pending eof step. -/
theorem claim_C10_witness :
    stM (nexttoken ⟨Tok.number, "", "42", [⟨Tok.eof, "", "42"⟩], initPrec⟩) <
      stM ⟨Tok.number, "", "42", [⟨Tok.eof, "", "42"⟩], initPrec⟩ :=
  claim_C10.2.1 ⟨Tok.number, "", "42", [⟨Tok.eof, "", "42"⟩], initPrec⟩ (by decide)

end Kali
